import Mathlib

/-!
Verification development for the resource-list parsing and resolution routine
of a CI action that publishes application versions (source: `src/main.ts`,
function `parseAndResolveResources`).  The routine takes the raw text of the
`resources` input, parses it as JSON, validates each array element, resolves
each element to literal text content (inline `content` or a file read at
`path`), and returns either an ordered list of resolved resources or an
absence signal (`undefined` in the source, `none` here).  Failures are thrown
`Error`s carrying a message string; here they are the `Except.error` branch
carrying the exact message string the source builds.
-/

namespace DistrCreateVersion

/-- JSON values as produced by JavaScript's `JSON.parse`.  Numbers are kept as
their source lexeme: the routine under study never inspects a numeric value,
it only distinguishes the kind of a value (`typeof` checks). -/
inductive Json where
  | null : Json
  | bool (b : Bool) : Json
  | num (lexeme : String) : Json
  | str (s : String) : Json
  | arr (elems : List Json) : Json
  | obj (fields : List (String × Json)) : Json

/-- Property lookup on a parsed JSON object.  `JSON.parse` lets a later
duplicate key overwrite an earlier one, so the last binding of the key wins. -/
def getField (fields : List (String × Json)) (key : String) : Option Json :=
  match fields with
  | [] => none
  | (k, v) :: rest =>
    match getField rest key with
    | some w => some w
    | none => if k = key then some v else none

/-- Whitespace accepted between JSON tokens (RFC 8259 / `JSON.parse`). -/
def isJsonWs (c : Char) : Bool :=
  c = ' ' || c = '\t' || c = '\n' || c = '\r'

/-- Drop leading inter-token whitespace. -/
def skipWs : List Char → List Char
  | [] => []
  | c :: cs => if isJsonWs c then skipWs cs else c :: cs

/-- Value of a hexadecimal digit, used for `\uXXXX` escapes. -/
def hexDigitVal (c : Char) : Option Nat :=
  let n := c.toNat
  if 48 ≤ n && n ≤ 57 then some (n - 48)
  else if 97 ≤ n && n ≤ 102 then some (n - 87)
  else if 65 ≤ n && n ≤ 70 then some (n - 55)
  else none

/-- Single-character JSON string escapes. -/
def escChar : Char → Option Char
  | 'n' => some '\n'
  | 't' => some '\t'
  | 'r' => some '\r'
  | 'b' => some (Char.ofNat 8)
  | 'f' => some (Char.ofNat 12)
  | '"' => some '"'
  | '/' => some '/'
  | '\\' => some '\\'
  | _ => none

/-- Body of a JSON string literal, after the opening quote.  Returns the
decoded characters and the remaining input after the closing quote.  Raw
control characters are rejected, as `JSON.parse` does.  (Surrogate-pair
recombination of two `\u` escapes is not modelled; no claim depends on it.) -/
def parseStringBody : List Char → Option (List Char × List Char)
  | [] => none
  | '"' :: rest => some ([], rest)
  | '\\' :: 'u' :: a :: b :: c :: d :: rest =>
    match hexDigitVal a, hexDigitVal b, hexDigitVal c, hexDigitVal d with
    | some ha, some hb, some hc, some hd =>
      (parseStringBody rest).map
        (fun sr => (Char.ofNat (((ha * 16 + hb) * 16 + hc) * 16 + hd) :: sr.1, sr.2))
    | _, _, _, _ => none
  | '\\' :: e :: rest =>
    match escChar e with
    | some c => (parseStringBody rest).map (fun sr => (c :: sr.1, sr.2))
    | none => none
  | c :: rest =>
    if c.toNat < 32 then none
    else (parseStringBody rest).map (fun sr => (c :: sr.1, sr.2))

/-- Integer part of a JSON number: `0`, or a nonzero digit followed by digits. -/
def parseIntPart : List Char → Option (List Char × List Char)
  | '0' :: rest => some (['0'], rest)
  | cs =>
    match cs.span Char.isDigit with
    | ([], _) => none
    | (ds, rest) => some (ds, rest)

/-- Optional fraction part of a JSON number. -/
def parseFrac (cs : List Char) : Option (List Char × List Char) :=
  match cs with
  | '.' :: rest =>
    match rest.span Char.isDigit with
    | ([], _) => none
    | (ds, r) => some ('.' :: ds, r)
  | _ => some ([], cs)

/-- Optional exponent part of a JSON number. -/
def parseExp (cs : List Char) : Option (List Char × List Char) :=
  match cs with
  | e :: rest =>
    if e = 'e' || e = 'E' then
      match (match rest with
             | '+' :: r => (['+'], r)
             | '-' :: r => (['-'], r)
             | r => (([] : List Char), r)) with
      | (sgn, r1) =>
        match r1.span Char.isDigit with
        | ([], _) => none
        | (ds, r2) => some (e :: (sgn ++ ds), r2)
    else some ([], cs)
  | [] => some ([], [])

/-- JSON number token (RFC 8259 grammar), returned as its lexeme. -/
def parseNumber (cs : List Char) : Option (List Char × List Char) :=
  match (match cs with
         | '-' :: r => (['-'], r)
         | _ => (([] : List Char), cs)) with
  | (sgn, cs1) =>
    match parseIntPart cs1 with
    | none => none
    | some (ip, cs2) =>
      match parseFrac cs2 with
      | none => none
      | some (fp, cs3) =>
        match parseExp cs3 with
        | none => none
        | some (ep, cs4) => some (sgn ++ ip ++ fp ++ ep, cs4)

mutual

/-- One JSON value, fuelled recursive descent. -/
def parseValue : Nat → List Char → Option (Json × List Char)
  | 0, _ => none
  | Nat.succ fuel, cs =>
    match skipWs cs with
    | [] => none
    | '"' :: rest => (parseStringBody rest).map (fun sr => (Json.str (String.mk sr.1), sr.2))
    | '{' :: rest =>
      match skipWs rest with
      | '}' :: r2 => some (Json.obj [], r2)
      | r2 => (parseMembers fuel r2).map (fun mr => (Json.obj mr.1, mr.2))
    | '[' :: rest =>
      match skipWs rest with
      | ']' :: r2 => some (Json.arr [], r2)
      | r2 => (parseElements fuel r2).map (fun er => (Json.arr er.1, er.2))
    | 't' :: 'r' :: 'u' :: 'e' :: rest => some (Json.bool true, rest)
    | 'f' :: 'a' :: 'l' :: 's' :: 'e' :: rest => some (Json.bool false, rest)
    | 'n' :: 'u' :: 'l' :: 'l' :: rest => some (Json.null, rest)
    | cs1 => (parseNumber cs1).map (fun nr => (Json.num (String.mk nr.1), nr.2))

/-- Nonempty member list of a JSON object, up to and including the `}`. -/
def parseMembers : Nat → List Char → Option (List (String × Json) × List Char)
  | 0, _ => none
  | Nat.succ fuel, cs =>
    match skipWs cs with
    | '"' :: rest =>
      match parseStringBody rest with
      | none => none
      | some (key, r2) =>
        match skipWs r2 with
        | ':' :: r3 =>
          match parseValue fuel r3 with
          | none => none
          | some (v, r4) =>
            match skipWs r4 with
            | ',' :: r5 =>
              (parseMembers fuel r5).map (fun mr => ((String.mk key, v) :: mr.1, mr.2))
            | '}' :: r5 => some ([(String.mk key, v)], r5)
            | _ => none
        | _ => none
    | _ => none

/-- Nonempty element list of a JSON array, up to and including the `]`. -/
def parseElements : Nat → List Char → Option (List Json × List Char)
  | 0, _ => none
  | Nat.succ fuel, cs =>
    match parseValue fuel cs with
    | none => none
    | some (v, r) =>
      match skipWs r with
      | ',' :: r2 => (parseElements fuel r2).map (fun er => (v :: er.1, er.2))
      | ']' :: r2 => some ([v], r2)
      | _ => none

end

/-- Model of JavaScript's `JSON.parse`: `none` when parsing throws a
`SyntaxError` (used by the source's `catch` branch), `some v` otherwise.
The fuel `2 * length + 2` dominates the number of recursive-descent steps,
each of which consumes at least one character or delegates downward. -/
def jsonParse (input : String) : Option Json :=
  match parseValue (2 * input.length + 2) input.data with
  | some (v, rest) => if (skipWs rest).isEmpty then some v else none
  | none => none

example : jsonParse "" = none := rfl
example : jsonParse " " = none := rfl
example : jsonParse "null" = some Json.null := rfl
example : jsonParse "[]" = some (Json.arr []) := rfl
example : jsonParse " [ 1 , true ] " = some (Json.arr [Json.num "1", Json.bool true]) := rfl
example : jsonParse "[\x7b\"name\":\"a\",\"content\":\"x\"\x7d]"
    = some (Json.arr [Json.obj [("name", Json.str "a"), ("content", Json.str "x")]]) := rfl

/-- Whitespace in the sense of JavaScript's `String.prototype.trim`
(ECMAScript WhiteSpace and LineTerminator code points). -/
def isJsWhitespace (c : Char) : Bool :=
  c = ' ' || c = '\t' || c = '\n' || c = '\r' || c = '\x0b' || c = '\x0c' ||
  c = '\u00A0' || c = '\u1680' || ('\u2000' ≤ c && c ≤ '\u200A') ||
  c = '\u2028' || c = '\u2029' || c = '\u202F' || c = '\u205F' ||
  c = '\u3000' || c = '\uFEFF'

/-- Model of JavaScript's `String.prototype.trim`: strip leading and trailing
whitespace. -/
def jsTrim (s : String) : String :=
  String.mk (((s.data.dropWhile isJsWhitespace).reverse.dropWhile isJsWhitespace).reverse)

/-- Output record of the resolver (source type `Resource`): a resolved,
normalized resource. -/
structure Resource where
  name : String
  content : String
  visibleToCustomers : Bool
deriving DecidableEq

/-- The filesystem as seen through `fs.readFile(path, 'utf8')`: for each path,
either the file's text or the failure's message (`err.message` in the source,
e.g. an ENOENT description).  The resolver is verified for an arbitrary
filesystem of this shape. -/
def FileSystem : Type := String → Except String String

/-- Per-item failure of the resolution loop.  Each constructor corresponds to
exactly one `throw new Error(...)` site inside the source's `for` loop;
`renderError` rebuilds the exact message thrown there.  The first seven are
the spec's `ValidationError`s, `readFailed` is its `ResourceReadError`. -/
inductive ItemError where
  | notObject : ItemError
  | missingName : ItemError
  | contentNotString (name : String) : ItemError
  | pathNotString (name : String) : ItemError
  | visibleNotBool (name : String) : ItemError
  | bothContentAndPath (name : String) : ItemError
  | neitherContentNorPath (name : String) : ItemError
  | readFailed (name : String) (path : String) (cause : String) : ItemError
deriving DecidableEq

/-- Message text of each `throw new Error(...)` inside the loop, exactly as
the source's template literals build it for the item at index `i`. -/
def renderError (i : Nat) : ItemError → String
  | ItemError.notObject =>
    "Resource [" ++ toString i ++ "]: must be a JSON object"
  | ItemError.missingName =>
    "Resource [" ++ toString i ++ "]: \"name\" is required and must be a string"
  | ItemError.contentNotString nm =>
    "Resource [" ++ toString i ++ "] \"" ++ nm ++ "\": \"content\" must be a string when provided"
  | ItemError.pathNotString nm =>
    "Resource [" ++ toString i ++ "] \"" ++ nm ++ "\": \"path\" must be a string when provided"
  | ItemError.visibleNotBool nm =>
    "Resource [" ++ toString i ++ "] \"" ++ nm
      ++ "\": \"visibleToCustomers\" must be a boolean when provided"
  | ItemError.bothContentAndPath nm =>
    "Resource [" ++ toString i ++ "] \"" ++ nm ++ "\": specify either \"content\" or \"path\", not both"
  | ItemError.neitherContentNorPath nm =>
    "Resource [" ++ toString i ++ "] \"" ++ nm ++ "\": either \"content\" or \"path\" is required"
  | ItemError.readFailed nm p cause =>
    "Resource [" ++ toString i ++ "] \"" ++ nm ++ "\": failed to read file \"" ++ p ++ "\": " ++ cause

/-- Negation of the source check `item.content !== undefined && typeof
item.content !== 'string'`: the field is absent or a string.  The same check
is applied to `path`. -/
def contentTypeOk : Option Json → Bool
  | none => true
  | some (Json.str _) => true
  | some _ => false

/-- Negation of the source check `item.visibleToCustomers !== undefined &&
typeof item.visibleToCustomers !== 'boolean'`. -/
def visibleTypeOk : Option Json → Bool
  | none => true
  | some (Json.bool _) => true
  | some _ => false

/-- Source expression `typeof item.content === 'string' &&
item.content.trim() !== ''` (and the analogous one for `path`): the field
holds a string that is non-blank after trimming. -/
def isNonBlankStr : Option Json → Bool
  | some (Json.str s) => jsTrim s != ""
  | _ => false

/-- The string held by an absent-or-string field (the source's
`item.content as string` / `item.path as string` casts). -/
def strField : Option Json → Option String
  | some (Json.str s) => some s
  | _ => none

/-- Source expression `(item.visibleToCustomers as boolean) ?? true`, reached
only after the type check, so the field is absent or a boolean. -/
def visibleValue : Option Json → Bool
  | some (Json.bool b) => b
  | _ => true

/-- Body of one iteration of the source's `for` loop (main.ts lines 119-160),
acting on the values of the four recognized properties of the element.  The
checks appear in source order: name, then the three type checks, then the
`hasContent`/`hasPath` exclusivity checks, then resolution.  The two `getD`
fallbacks are unreachable (guarded by `hasPath`/`hasContent`) and mirror the
source's `as string` casts. -/
def resolveFields (fs : FileSystem) (nameF contentF pathF visibleF : Option Json) :
    Except ItemError Resource :=
  match nameF with
  | some (Json.str nm) =>
    if nm = "" then Except.error ItemError.missingName
    else if contentTypeOk contentF = false then Except.error (ItemError.contentNotString nm)
    else if contentTypeOk pathF = false then Except.error (ItemError.pathNotString nm)
    else if visibleTypeOk visibleF = false then Except.error (ItemError.visibleNotBool nm)
    else if isNonBlankStr contentF && isNonBlankStr pathF then
      Except.error (ItemError.bothContentAndPath nm)
    else if !isNonBlankStr contentF && !isNonBlankStr pathF then
      Except.error (ItemError.neitherContentNorPath nm)
    else if isNonBlankStr pathF then
      match fs ((strField pathF).getD "") with
      | Except.ok text =>
        Except.ok (Resource.mk nm text (visibleValue visibleF))
      | Except.error cause =>
        Except.error (ItemError.readFailed nm ((strField pathF).getD "") cause)
    else
      Except.ok (Resource.mk nm ((strField contentF).getD "") (visibleValue visibleF))
  | _ => Except.error ItemError.missingName

/-- Validation and resolution of one array element (main.ts lines 113-160).
The element must be a JSON object (`typeof item === 'object'`, not `null`,
not an array); property access models JavaScript member access on the parsed
object, with `none` for `undefined`. -/
def resolveItem (fs : FileSystem) (item : Json) : Except ItemError Resource :=
  match item with
  | Json.obj fields =>
    resolveFields fs (getField fields "name") (getField fields "content")
      (getField fields "path") (getField fields "visibleToCustomers")
  | _ => Except.error ItemError.notObject

/-- The source's `for` loop over the parsed array (main.ts lines 111-161),
with `i` the index of the first element of `items` in the original array.
The first failing element aborts the loop with its rendered message; on
success the resolved resources are returned in input order. -/
def resolveLoop (fs : FileSystem) (items : List Json) (i : Nat) :
    Except String (List Resource) :=
  match items with
  | [] => Except.ok []
  | item :: rest =>
    match resolveItem fs item with
    | Except.error e => Except.error (renderError i e)
    | Except.ok r =>
      match resolveLoop fs rest (i + 1) with
      | Except.error msg => Except.error msg
      | Except.ok rs => Except.ok (r :: rs)

/-- The whole of `parseAndResolveResources` (main.ts lines 95-164).  `!input`
on a JavaScript string is true exactly for the empty string; a parse failure
and a non-array parse produce the two top-level errors; otherwise the loop
runs and an empty result list is returned as `none` (`undefined`), matching
`resources.length > 0 ? resources : undefined`. -/
def parseAndResolveResources (fs : FileSystem) (input : String) :
    Except String (Option (List Resource)) :=
  if input = "" then Except.ok none
  else
    match jsonParse input with
    | none => Except.error "Input \"resources\" is not valid JSON"
    | some (Json.arr items) =>
      match resolveLoop fs items 0 with
      | Except.error msg => Except.error msg
      | Except.ok resources =>
        Except.ok (if resources.length > 0 then some resources else none)
    | some _ => Except.error "Input \"resources\" must be a JSON array"

/-- A filesystem on which every read fails, for concrete instantiations. -/
def emptyFs : FileSystem := fun _ => Except.error "ENOENT: no such file or directory"

/-- A filesystem holding exactly one file `f.txt`, for concrete
instantiations. -/
def oneFileFs : FileSystem := fun p =>
  if p = "f.txt" then Except.ok "file body" else Except.error "ENOENT: no such file or directory"

example :
    parseAndResolveResources emptyFs "[\x7b\"name\":\"a\",\"content\":\"x\"\x7d]"
      = Except.ok (some [Resource.mk "a" "x" true]) := rfl

example :
    parseAndResolveResources oneFileFs "[\x7b\"name\":\"a\",\"path\":\"f.txt\"\x7d]"
      = Except.ok (some [Resource.mk "a" "file body" true]) := rfl

example :
    parseAndResolveResources emptyFs "[\x7b\"name\":\"a\",\"path\":\"f.txt\"\x7d]"
      = Except.error
          "Resource [0] \"a\": failed to read file \"f.txt\": ENOENT: no such file or directory" :=
  rfl

example : parseAndResolveResources emptyFs "[]" = Except.ok none := rfl

example : parseAndResolveResources emptyFs " " = Except.error "Input \"resources\" is not valid JSON" := rfl

@[simp] lemma contentTypeOk_str (s : String) : contentTypeOk (some (Json.str s)) = true := rfl

@[simp] lemma isNonBlankStr_str (s : String) :
    isNonBlankStr (some (Json.str s)) = (jsTrim s != "") := rfl

@[simp] lemma strField_str (s : String) : strField (some (Json.str s)) = some s := rfl

lemma isNonBlankStr_shape (f : Option Json) (h : isNonBlankStr f = true) :
    ∃ s, f = some (Json.str s) ∧ jsTrim s ≠ "" := by
  cases f with
  | none => exact absurd h (by simp [isNonBlankStr])
  | some v =>
    cases v with
    | str s => exact ⟨s, rfl, by simpa [isNonBlankStr] using h⟩
    | null => exact absurd h (by simp [isNonBlankStr])
    | bool b => exact absurd h (by simp [isNonBlankStr])
    | num l => exact absurd h (by simp [isNonBlankStr])
    | arr l => exact absurd h (by simp [isNonBlankStr])
    | obj l => exact absurd h (by simp [isNonBlankStr])

/-- Everything a successful `resolveFields` says about its inputs: the name is
the input's name string, non-empty; the visibility is the input's value with
`true` for absent; and the content came from exactly one of the two sources,
untrimmed from `content` or read from the file at `path`. -/
lemma resolveFields_ok_spec (fs : FileSystem) (nF cF pF vF : Option Json) (r : Resource)
    (hok : resolveFields fs nF cF pF vF = Except.ok r) :
    nF = some (Json.str r.name) ∧ r.name ≠ "" ∧
    r.visibleToCustomers = visibleValue vF ∧
    ((isNonBlankStr cF = true ∧ isNonBlankStr pF = false ∧ cF = some (Json.str r.content)) ∨
     (isNonBlankStr pF = true ∧ isNonBlankStr cF = false ∧
        ∃ p, pF = some (Json.str p) ∧ fs p = Except.ok r.content)) := by
  cases nF with
  | none => exact absurd hok (by simp [resolveFields])
  | some v =>
    cases v with
    | str nm =>
      rw [resolveFields] at hok
      split_ifs at hok with h1 h2 h3 h4 h5 h6 h7
      · -- hasPath branch
        obtain ⟨p, hp, hpb⟩ := isNonBlankStr_shape pF h7
        subst hp
        simp only [strField_str, Option.getD_some] at hok
        cases hread : fs p with
        | ok t =>
          rw [hread] at hok
          cases hok
          have hcF : isNonBlankStr cF = false := by
            cases hcchk : isNonBlankStr cF with
            | false => rfl
            | true => exact absurd (by simp [hcchk, h7]) h5
          exact ⟨rfl, h1, rfl, Or.inr ⟨h7, hcF, p, rfl, hread⟩⟩
        | error cause =>
          rw [hread] at hok
          exact Except.noConfusion hok
      · -- inline-content branch
        have hpF : isNonBlankStr pF = false := by
          cases hpchk : isNonBlankStr pF with
          | false => rfl
          | true => exact absurd hpchk h7
        have hcF : isNonBlankStr cF = true := by
          cases hcchk : isNonBlankStr cF with
          | true => rfl
          | false => exact absurd (by simp [hcchk, hpF]) h6
        obtain ⟨c, hc, hcb⟩ := isNonBlankStr_shape cF hcF
        subst hc
        simp only [strField_str, Option.getD_some] at hok
        cases hok
        exact ⟨rfl, h1, rfl, Or.inl ⟨hcF, hpF, rfl⟩⟩
    | null => exact absurd hok (by simp [resolveFields])
    | bool b => exact absurd hok (by simp [resolveFields])
    | num l => exact absurd hok (by simp [resolveFields])
    | arr l => exact absurd hok (by simp [resolveFields])
    | obj l => exact absurd hok (by simp [resolveFields])

/-- Successful resolution from inline content: the stored content is the
literal `content` string, untrimmed. -/
lemma resolveFields_content_ok (fs : FileSystem) (cF pF vF : Option Json) (nm c : String)
    (hnm : nm ≠ "") (hc : cF = some (Json.str c)) (hcb : jsTrim c ≠ "")
    (hpt : contentTypeOk pF = true) (hpnb : isNonBlankStr pF = false)
    (hvt : visibleTypeOk vF = true) :
    resolveFields fs (some (Json.str nm)) cF pF vF
      = Except.ok (Resource.mk nm c (visibleValue vF)) := by
  subst hc
  simp [resolveFields, hnm, hpt, hpnb, hvt, hcb]

/-- Successful resolution from a readable file at `path`. -/
lemma resolveFields_path_ok (fs : FileSystem) (cF pF vF : Option Json) (nm p t : String)
    (hnm : nm ≠ "") (hct : contentTypeOk cF = true) (hcnb : isNonBlankStr cF = false)
    (hp : pF = some (Json.str p)) (hpb : jsTrim p ≠ "") (hvt : visibleTypeOk vF = true)
    (hread : fs p = Except.ok t) :
    resolveFields fs (some (Json.str nm)) cF pF vF
      = Except.ok (Resource.mk nm t (visibleValue vF)) := by
  subst hp
  simp [resolveFields, hnm, hct, hcnb, hvt, hpb, hread]

/-- Both `content` and `path` non-blank: the mutual-exclusion error. -/
lemma resolveFields_both_err (fs : FileSystem) (cF pF vF : Option Json) (nm : String)
    (hnm : nm ≠ "") (hct : contentTypeOk cF = true) (hpt : contentTypeOk pF = true)
    (hvt : visibleTypeOk vF = true)
    (hcb : isNonBlankStr cF = true) (hpb : isNonBlankStr pF = true) :
    resolveFields fs (some (Json.str nm)) cF pF vF
      = Except.error (ItemError.bothContentAndPath nm) := by
  simp [resolveFields, hnm, hct, hpt, hvt, hcb, hpb]

/-- Neither `content` nor `path` non-blank: the missing-source error. -/
lemma resolveFields_neither_err (fs : FileSystem) (cF pF vF : Option Json) (nm : String)
    (hnm : nm ≠ "") (hct : contentTypeOk cF = true) (hpt : contentTypeOk pF = true)
    (hvt : visibleTypeOk vF = true)
    (hcb : isNonBlankStr cF = false) (hpb : isNonBlankStr pF = false) :
    resolveFields fs (some (Json.str nm)) cF pF vF
      = Except.error (ItemError.neitherContentNorPath nm) := by
  simp [resolveFields, hnm, hct, hpt, hvt, hcb, hpb]

/-- A failing file read surfaces as the read-failure error carrying name,
path and cause. -/
lemma resolveFields_read_err (fs : FileSystem) (cF pF vF : Option Json) (nm p cause : String)
    (hnm : nm ≠ "") (hct : contentTypeOk cF = true) (hcnb : isNonBlankStr cF = false)
    (hp : pF = some (Json.str p)) (hpb : jsTrim p ≠ "") (hvt : visibleTypeOk vF = true)
    (hread : fs p = Except.error cause) :
    resolveFields fs (some (Json.str nm)) cF pF vF
      = Except.error (ItemError.readFailed nm p cause) := by
  subst hp
  simp [resolveFields, hnm, hct, hcnb, hvt, hpb, hread]

/-- A successful loop yields exactly one output per input element. -/
lemma resolveLoop_ok_length (fs : FileSystem) :
    ∀ (items : List Json) (i : Nat) (rs : List Resource),
      resolveLoop fs items i = Except.ok rs → rs.length = items.length := by
  intro items
  induction items with
  | nil => intro i rs h; cases h; rfl
  | cons a t ih =>
    intro i rs h
    rw [resolveLoop] at h
    cases ha : resolveItem fs a with
    | error e => rw [ha] at h; exact Except.noConfusion h
    | ok r =>
      rw [ha] at h
      cases ht : resolveLoop fs t (i + 1) with
      | error m => rw [ht] at h; exact Except.noConfusion h
      | ok rs2 =>
        rw [ht] at h
        cases h
        simp [ih (i + 1) rs2 ht]

/-- If every element of the list resolves, the loop succeeds and returns the
per-element resolutions in input order. -/
lemma resolveLoop_all_ok (fs : FileSystem) :
    ∀ (items : List Json),
      (∀ j (hj : j < items.length), ∃ r, resolveItem fs (items.get ⟨j, hj⟩) = Except.ok r) →
      ∀ i, ∃ rs, resolveLoop fs items i = Except.ok rs ∧ rs.length = items.length ∧
        ∀ j (hj : j < items.length) (hj2 : j < rs.length),
          resolveItem fs (items.get ⟨j, hj⟩) = Except.ok (rs.get ⟨j, hj2⟩) := by
  intro items
  induction items with
  | nil =>
    intro _ i
    exact ⟨[], rfl, rfl, fun j hj _ => absurd hj (Nat.not_lt_zero j)⟩
  | cons a t ih =>
    intro hall i
    obtain ⟨r0, hr0⟩ := hall 0 (Nat.succ_pos _)
    obtain ⟨rs, hrs, hlen, hget⟩ := ih (fun j hj => hall (j + 1) (Nat.succ_lt_succ hj)) (i + 1)
    refine ⟨r0 :: rs, ?_, ?_, ?_⟩
    · simp only [resolveLoop]
      rw [show resolveItem fs a = Except.ok r0 from hr0, hrs]
    · simp [hlen]
    · intro j hj hj2
      cases j with
      | zero => exact hr0
      | succ j => exact hget j (Nat.lt_of_succ_lt_succ hj) (Nat.lt_of_succ_lt_succ hj2)

/-- Fail-fast: when every element before position `pre.length` resolves and
the element there fails with `e`, the loop fails with `e`'s message rendered
at that absolute index, whatever the elements after it are. -/
lemma resolveLoop_first_error (fs : FileSystem) :
    ∀ (pre : List Json) (bad : Json) (rest : List Json) (e : ItemError) (i : Nat),
      (∀ j (hj : j < pre.length), ∃ r, resolveItem fs (pre.get ⟨j, hj⟩) = Except.ok r) →
      resolveItem fs bad = Except.error e →
      resolveLoop fs (pre ++ bad :: rest) i = Except.error (renderError (i + pre.length) e) := by
  intro pre
  induction pre with
  | nil =>
    intro bad rest e i _ hbad
    simp only [List.nil_append, resolveLoop]
    rw [hbad]
    rfl
  | cons a t ih =>
    intro bad rest e i hpre hbad
    obtain ⟨r0, hr0⟩ := hpre 0 (Nat.succ_pos _)
    have hr0x : resolveItem fs a = Except.ok r0 := hr0
    have htail : resolveLoop fs (t.append (bad :: rest)) (i + 1)
        = Except.error (renderError (i + 1 + t.length) e) :=
      ih bad rest e (i + 1) (fun j hj => hpre (j + 1) (Nat.succ_lt_succ hj)) hbad
    simp only [List.cons_append, resolveLoop, hr0x, htail, List.length_cons]
    have harith : i + 1 + t.length = i + (t.length + 1) := by omega
    rw [harith]

/-- The per-item step only reads the four recognized properties of the
element: two objects agreeing on them resolve identically. -/
lemma resolveItem_congr (fs : FileSystem) (f1 f2 : List (String × Json))
    (hn : getField f1 "name" = getField f2 "name")
    (hc : getField f1 "content" = getField f2 "content")
    (hp : getField f1 "path" = getField f2 "path")
    (hv : getField f1 "visibleToCustomers" = getField f2 "visibleToCustomers") :
    resolveItem fs (Json.obj f1) = resolveItem fs (Json.obj f2) := by
  simp only [resolveItem, hn, hc, hp, hv]

/-- Two elements that are both objects and agree on the four recognized
fields; they may differ arbitrarily in other, unrecognized keys. -/
def sameRecognizedFields (a b : Json) : Prop :=
  ∃ f1 f2, a = Json.obj f1 ∧ b = Json.obj f2 ∧
    getField f1 "name" = getField f2 "name" ∧
    getField f1 "content" = getField f2 "content" ∧
    getField f1 "path" = getField f2 "path" ∧
    getField f1 "visibleToCustomers" = getField f2 "visibleToCustomers"

/-- The loop is insensitive to unrecognized keys. -/
lemma resolveLoop_congr (fs : FileSystem) (items1 items2 : List Json)
    (hrel : List.Forall₂ sameRecognizedFields items1 items2) :
    ∀ i, resolveLoop fs items1 i = resolveLoop fs items2 i := by
  induction hrel with
  | nil => intro i; rfl
  | cons hab hrest ih =>
    intro i
    obtain ⟨f1, f2, ha, hb, hn, hc, hp, hv⟩ := hab
    subst ha; subst hb
    simp only [resolveLoop]
    rw [resolveItem_congr fs f1 f2 hn hc hp hv, ih (i + 1)]

lemma jsonParse_empty : jsonParse "" = none := rfl

/-- Behaviour of the whole routine once the input is known to parse to an
array: only the loop and the final empty-list collapse remain. -/
lemma parseAndResolveResources_arr (fs : FileSystem) (input : String) (items : List Json)
    (hp : jsonParse input = some (Json.arr items)) :
    parseAndResolveResources fs input =
      match resolveLoop fs items 0 with
      | Except.error msg => Except.error msg
      | Except.ok resources =>
        Except.ok (if resources.length > 0 then some resources else none) := by
  have hne : input ≠ "" := by
    intro h
    subst h
    rw [jsonParse_empty] at hp
    exact Option.noConfusion hp
  rw [parseAndResolveResources, if_neg hne, hp]

lemma parseAndResolveResources_parse_fail (fs : FileSystem) (input : String)
    (hne : input ≠ "") (hp : jsonParse input = none) :
    parseAndResolveResources fs input
      = Except.error "Input \"resources\" is not valid JSON" := by
  rw [parseAndResolveResources, if_neg hne, hp]

/-- C5 counterexample: the source's emptiness test is `!input`, which is true
only for the empty string.  A blank-but-nonempty raw input such as a single
space is NOT treated as absent: it reaches `JSON.parse`, which rejects
whitespace-only text, so the call fails instead of returning absent. -/
theorem c5_blank_input_counterexample :
    parseAndResolveResources emptyFs " "
      = Except.error "Input \"resources\" is not valid JSON" := rfl

/-- C5 (amended): for the EMPTY raw input, the routine returns absent
immediately, for every filesystem (so no file is read and the parser is never
consulted); blank-but-nonempty inputs instead proceed to parsing. -/
theorem c5_empty_input_absent (fs : FileSystem) :
    parseAndResolveResources fs "" = Except.ok none := rfl

/-- C6: once the parsed array's loop has produced the output sequence, the
routine returns absent when that sequence is empty (which happens exactly for
the empty input array, the lengths being equal) and the sequence otherwise;
and globally, every non-absent success of the routine is a non-empty list. -/
theorem c6_empty_result_absent (fs : FileSystem) (input : String) (items : List Json)
    (rs : List Resource)
    (hparse : jsonParse input = some (Json.arr items))
    (hloop : resolveLoop fs items 0 = Except.ok rs) :
    parseAndResolveResources fs input
      = Except.ok (if rs.length > 0 then some rs else none) ∧
    rs.length = items.length ∧
    ∀ (fs2 : FileSystem) (input2 : String) (rs2 : List Resource),
      parseAndResolveResources fs2 input2 = Except.ok (some rs2) → rs2 ≠ [] := by
  refine ⟨?_, resolveLoop_ok_length fs items 0 rs hloop, ?_⟩
  · rw [parseAndResolveResources_arr fs input items hparse, hloop]
  · intro fs2 input2 rs2 h
    by_cases hemp : input2 = ""
    · subst hemp
      rw [show parseAndResolveResources fs2 "" = Except.ok none from rfl] at h
      exact absurd (Except.ok.inj h) (by simp)
    · cases hp : jsonParse input2 with
      | none =>
        rw [parseAndResolveResources_parse_fail fs2 input2 hemp hp] at h
        exact Except.noConfusion h
      | some v =>
        cases v with
        | arr items2 =>
          cases hl : resolveLoop fs2 items2 0 with
          | error m =>
            have h2 : parseAndResolveResources fs2 input2 = Except.error m := by
              rw [parseAndResolveResources_arr fs2 input2 items2 hp, hl]
            rw [h2] at h
            exact Except.noConfusion h
          | ok rs3 =>
            have h2 : parseAndResolveResources fs2 input2
                = Except.ok (if rs3.length > 0 then some rs3 else none) := by
              rw [parseAndResolveResources_arr fs2 input2 items2 hp, hl]
            rw [h2] at h
            split_ifs at h with hlen
            · have hrs : rs3 = rs2 := Option.some.inj (Except.ok.inj h)
              subst hrs
              intro hnil
              subst hnil
              simp at hlen
            · exact absurd (Except.ok.inj h) (by simp)
        | null =>
          rw [parseAndResolveResources, if_neg hemp, hp] at h
          exact Except.noConfusion h
        | bool b =>
          rw [parseAndResolveResources, if_neg hemp, hp] at h
          exact Except.noConfusion h
        | num l =>
          rw [parseAndResolveResources, if_neg hemp, hp] at h
          exact Except.noConfusion h
        | str s =>
          rw [parseAndResolveResources, if_neg hemp, hp] at h
          exact Except.noConfusion h
        | obj f =>
          rw [parseAndResolveResources, if_neg hemp, hp] at h
          exact Except.noConfusion h

theorem c6_empty_result_absent_witness :
    parseAndResolveResources emptyFs "[]" = Except.ok none := by
  have h := c6_empty_result_absent emptyFs "[]" [] [] rfl rfl
  simpa using h.1

/-- C7: when an element is resolved from inline content, the stored content
is the literal `content` string exactly as given; trimming was used only for
the blank check, never applied to the stored value. -/
theorem c7_content_stored_untrimmed (fs : FileSystem) (fields : List (String × Json))
    (c : String) (r : Resource)
    (hc : getField fields "content" = some (Json.str c)) (hcb : jsTrim c ≠ "")
    (hok : resolveItem fs (Json.obj fields) = Except.ok r) :
    r.content = c := by
  simp only [resolveItem] at hok
  obtain ⟨-, -, -, hcase⟩ := resolveFields_ok_spec fs _ _ _ _ r hok
  cases hcase with
  | inl hcl =>
    obtain ⟨-, -, hceq⟩ := hcl
    rw [hc] at hceq
    exact (Json.str.inj (Option.some.inj hceq)).symm
  | inr hcr =>
    obtain ⟨-, hcf, -⟩ := hcr
    rw [hc] at hcf
    simp [hcb] at hcf

theorem c7_content_stored_untrimmed_witness :
    (Resource.mk "a" "  x " true).content = "  x " :=
  c7_content_stored_untrimmed emptyFs
    [("name", Json.str "a"), ("content", Json.str "  x ")]
    "  x " (Resource.mk "a" "  x " true) rfl (by decide) rfl

/-- C8: the routine is a pure function of the raw input and the filesystem
snapshot: two calls with the same raw input against filesystems that answer
every read identically (an unchanged filesystem) produce identical outcomes —
both absent, both the same error, or element-wise equal sequences. -/
theorem c8_idempotent (fs1 fs2 : FileSystem) (input : String)
    (hfs : ∀ p, fs1 p = fs2 p) :
    parseAndResolveResources fs1 input = parseAndResolveResources fs2 input := by
  have h : fs1 = fs2 := funext hfs
  rw [h]

theorem c8_idempotent_witness :
    parseAndResolveResources emptyFs "[\x7b\"name\":\"a\",\"content\":\"x\"\x7d]"
      = parseAndResolveResources emptyFs "[\x7b\"name\":\"a\",\"content\":\"x\"\x7d]" :=
  c8_idempotent emptyFs emptyFs "[\x7b\"name\":\"a\",\"content\":\"x\"\x7d]" (fun _ => rfl)

/-- C9: a name that is a non-empty string of only whitespace passes the name
check (the source tests `!item.name`, JavaScript truthiness, which does not
trim), and a successful resolution carries that whitespace name verbatim. -/
theorem c9_whitespace_name_passes (fs : FileSystem) (fields : List (String × Json))
    (nm : String)
    (hname : getField fields "name" = some (Json.str nm))
    (_hws : ∀ ch ∈ nm.data, isJsWhitespace ch = true) (hne : nm ≠ "") :
    resolveItem fs (Json.obj fields) ≠ Except.error ItemError.missingName ∧
    ∀ r, resolveItem fs (Json.obj fields) = Except.ok r → r.name = nm := by
  constructor
  · intro hbad
    simp only [resolveItem] at hbad
    rw [hname, resolveFields] at hbad
    split_ifs at hbad with h1 h2 h3 h4 h5 h6 h7
    · exact hne h1
    · exact ItemError.noConfusion (Except.error.inj hbad)
    · exact ItemError.noConfusion (Except.error.inj hbad)
    · exact ItemError.noConfusion (Except.error.inj hbad)
    · exact ItemError.noConfusion (Except.error.inj hbad)
    · exact ItemError.noConfusion (Except.error.inj hbad)
    · split at hbad
      · exact Except.noConfusion hbad
      · exact ItemError.noConfusion (Except.error.inj hbad)
  · intro r hok
    simp only [resolveItem] at hok
    obtain ⟨hnameEq, -, -, -⟩ := resolveFields_ok_spec fs _ _ _ _ r hok
    rw [hname] at hnameEq
    exact (Json.str.inj (Option.some.inj hnameEq)).symm

theorem c9_whitespace_name_passes_witness :
    resolveItem emptyFs (Json.obj [("name", Json.str " "), ("content", Json.str "x")])
      ≠ Except.error ItemError.missingName ∧
    (Resource.mk " " "x" true).name = " " := by
  have h := c9_whitespace_name_passes emptyFs
      [("name", Json.str " "), ("content", Json.str "x")] " "
      rfl (by decide) (by decide)
  exact ⟨h.1, h.2 (Resource.mk " " "x" true) rfl⟩

/-- C10: the routine reads only the four recognized fields of each element
(plus the filesystem at the referenced paths): two inputs whose parsed arrays
agree element-wise on `name`, `content`, `path` and `visibleToCustomers` —
differing only in unrecognized extra keys — produce equal outcomes, so
unrecognized fields are silently ignored, never rejected. -/
theorem c10_unrecognized_keys_ignored (fs : FileSystem) (input1 input2 : String)
    (items1 items2 : List Json)
    (h1 : jsonParse input1 = some (Json.arr items1))
    (h2 : jsonParse input2 = some (Json.arr items2))
    (hrel : List.Forall₂ sameRecognizedFields items1 items2) :
    parseAndResolveResources fs input1 = parseAndResolveResources fs input2 := by
  rw [parseAndResolveResources_arr fs input1 items1 h1,
    parseAndResolveResources_arr fs input2 items2 h2,
    resolveLoop_congr fs items1 items2 hrel 0]

theorem c10_unrecognized_keys_ignored_witness :
    parseAndResolveResources emptyFs "[\x7b\"name\":\"a\",\"content\":\"x\"\x7d]"
      = parseAndResolveResources emptyFs
          "[\x7b\"name\":\"a\",\"content\":\"x\",\"extra\":true\x7d]" := by
  refine c10_unrecognized_keys_ignored emptyFs _ _
      [Json.obj [("name", Json.str "a"), ("content", Json.str "x")]]
      [Json.obj [("name", Json.str "a"), ("content", Json.str "x"), ("extra", Json.bool true)]]
      rfl rfl ?_
  exact List.Forall₂.cons ⟨_, _, rfl, rfl, rfl, rfl, rfl, rfl⟩ List.Forall₂.nil

lemma strAppend_assoc (x y z : String) : x ++ y ++ z = x ++ (y ++ z) :=
  congrArg String.mk (List.append_assoc x.data y.data z.data)

/-- C1 counterexample: the empty JSON array `[]` parses as an array all of
whose (zero) elements are valid, yet the routine returns absent (`none`)
rather than a sequence of length zero: the claim's conclusion that a sequence
is returned fails on this input. -/
theorem c1_empty_array_counterexample :
    jsonParse "[]" = some (Json.arr []) ∧
    parseAndResolveResources emptyFs "[]" = Except.ok none ∧
    (Except.ok none : Except String (Option (List Resource)))
      ≠ Except.ok (some ([] : List Resource)) :=
  ⟨rfl, rfl, fun h => Option.noConfusion (Except.ok.inj h)⟩

/-- C1 (amended): for every input string that parses as a NONEMPTY JSON array
whose elements all resolve, the routine returns a sequence of the same
length in the input array's order, element `j` produced one-to-one from input
element `j`: its name is the input's name unchanged, its content is the
resolved literal body (the untrimmed inline `content`, or the text read at
`path`), and its `visibleToCustomers` is the input's value when present and
`true` when omitted.  (For the empty array the routine returns absent rather
than an empty sequence.) -/
theorem c1_order_preserving_map (fs : FileSystem) (input : String) (items : List Json)
    (hparse : jsonParse input = some (Json.arr items))
    (hne : items ≠ [])
    (hvalid : ∀ j (hj : j < items.length),
      ∃ r, resolveItem fs (items.get ⟨j, hj⟩) = Except.ok r) :
    ∃ rs, parseAndResolveResources fs input = Except.ok (some rs) ∧
      rs.length = items.length ∧
      ∀ j (hj : j < items.length) (hj2 : j < rs.length),
        resolveItem fs (items.get ⟨j, hj⟩) = Except.ok (rs.get ⟨j, hj2⟩) ∧
        ∀ fields, items.get ⟨j, hj⟩ = Json.obj fields →
          (∀ nm, getField fields "name" = some (Json.str nm) →
            (rs.get ⟨j, hj2⟩).name = nm) ∧
          (getField fields "visibleToCustomers" = none →
            (rs.get ⟨j, hj2⟩).visibleToCustomers = true) ∧
          (∀ b, getField fields "visibleToCustomers" = some (Json.bool b) →
            (rs.get ⟨j, hj2⟩).visibleToCustomers = b) ∧
          (∀ c, getField fields "content" = some (Json.str c) → jsTrim c ≠ "" →
            (rs.get ⟨j, hj2⟩).content = c) ∧
          (∀ p, getField fields "path" = some (Json.str p) → jsTrim p ≠ "" →
            fs p = Except.ok ((rs.get ⟨j, hj2⟩).content)) := by
  obtain ⟨rs, hloop, hlen, hget⟩ := resolveLoop_all_ok fs items hvalid 0
  have hres : parseAndResolveResources fs input
      = Except.ok (if rs.length > 0 then some rs else none) := by
    rw [parseAndResolveResources_arr fs input items hparse, hloop]
  have hpos : rs.length > 0 := by
    rw [hlen]
    cases items with
    | nil => exact absurd rfl hne
    | cons a t => simp
  rw [if_pos hpos] at hres
  refine ⟨rs, hres, hlen, ?_⟩
  intro j hj hj2
  refine ⟨hget j hj hj2, ?_⟩
  intro fields hfields
  have hitem := hget j hj hj2
  rw [hfields] at hitem
  simp only [resolveItem] at hitem
  obtain ⟨hnameEq, -, hvis, hcase⟩ := resolveFields_ok_spec fs _ _ _ _ _ hitem
  refine ⟨?_, ?_, ?_, ?_, ?_⟩
  · intro nm h
    rw [hnameEq] at h
    exact Json.str.inj (Option.some.inj h)
  · intro hnone
    rw [hvis, hnone]
    rfl
  · intro b hb
    rw [hvis, hb]
    rfl
  · intro c hc hcb
    cases hcase with
    | inl hcl =>
      obtain ⟨-, -, hceq⟩ := hcl
      rw [hc] at hceq
      exact (Json.str.inj (Option.some.inj hceq)).symm
    | inr hcr =>
      obtain ⟨-, hcf, -⟩ := hcr
      rw [hc] at hcf
      simp [hcb] at hcf
  · intro p hp hpb
    cases hcase with
    | inl hcl =>
      obtain ⟨-, hpf, -⟩ := hcl
      rw [hp] at hpf
      simp [hpb] at hpf
    | inr hcr =>
      obtain ⟨-, -, p2, hp2, hread⟩ := hcr
      rw [hp] at hp2
      rw [Json.str.inj (Option.some.inj hp2)]
      exact hread

theorem c1_order_preserving_map_witness :
    ∃ rs, parseAndResolveResources oneFileFs
        "[\x7b\"name\":\"a\",\"content\":\"x\"\x7d,\x7b\"name\":\"b\",\"path\":\"f.txt\",\"visibleToCustomers\":false\x7d]"
        = Except.ok (some rs) ∧ rs.length = 2 := by
  obtain ⟨rs, h1, h2, -⟩ := c1_order_preserving_map oneFileFs
      "[\x7b\"name\":\"a\",\"content\":\"x\"\x7d,\x7b\"name\":\"b\",\"path\":\"f.txt\",\"visibleToCustomers\":false\x7d]"
      [Json.obj [("name", Json.str "a"), ("content", Json.str "x")],
       Json.obj [("name", Json.str "b"), ("path", Json.str "f.txt"),
                 ("visibleToCustomers", Json.bool false)]]
      rfl (fun h => List.noConfusion h)
      (fun j hj => match j, hj with
        | 0, _ => ⟨Resource.mk "a" "x" true, rfl⟩
        | 1, _ => ⟨Resource.mk "b" "file body" false, rfl⟩
        | j + 2, hj =>
          absurd (Nat.lt_of_succ_lt_succ (Nat.lt_of_succ_lt_succ hj)) (Nat.not_lt_zero j))
  exact ⟨rs, h1, h2⟩

/-- C2: for an element that is an object with a valid non-empty string name
and type-correct optional fields, with `hasContent`/`hasPath` as in the source
(string, non-blank after trimming): if both hold and all earlier elements are
valid, the routine fails with the exact "specify either content or path, not
both" message naming the element's index and name; if neither holds, it fails
with the exact "either content or path is required" message naming index and
name. -/
theorem c2_content_path_exclusivity (fs : FileSystem) (fields : List (String × Json))
    (nm : String) (input : String) (pre rest : List Json)
    (hname : getField fields "name" = some (Json.str nm)) (hnm : nm ≠ "")
    (hct : contentTypeOk (getField fields "content") = true)
    (hpt : contentTypeOk (getField fields "path") = true)
    (hvt : visibleTypeOk (getField fields "visibleToCustomers") = true)
    (hparse : jsonParse input = some (Json.arr (pre ++ Json.obj fields :: rest)))
    (hpre : ∀ j (hj : j < pre.length), ∃ r, resolveItem fs (pre.get ⟨j, hj⟩) = Except.ok r) :
    (isNonBlankStr (getField fields "content") = true →
     isNonBlankStr (getField fields "path") = true →
      parseAndResolveResources fs input = Except.error
        ("Resource [" ++ toString pre.length ++ "] \"" ++ nm
          ++ "\": specify either \"content\" or \"path\", not both")) ∧
    (isNonBlankStr (getField fields "content") = false →
     isNonBlankStr (getField fields "path") = false →
      parseAndResolveResources fs input = Except.error
        ("Resource [" ++ toString pre.length ++ "] \"" ++ nm
          ++ "\": either \"content\" or \"path\" is required")) := by
  constructor
  · intro hcb hpb
    have hitem : resolveItem fs (Json.obj fields)
        = Except.error (ItemError.bothContentAndPath nm) := by
      simp only [resolveItem]
      rw [hname]
      exact resolveFields_both_err fs _ _ _ nm hnm hct hpt hvt hcb hpb
    have hloop := resolveLoop_first_error fs pre (Json.obj fields) rest _ 0 hpre hitem
    have hres : parseAndResolveResources fs input
        = Except.error (renderError (0 + pre.length) (ItemError.bothContentAndPath nm)) := by
      rw [parseAndResolveResources_arr fs input _ hparse, hloop]
    rw [Nat.zero_add] at hres
    exact hres
  · intro hcb hpb
    have hitem : resolveItem fs (Json.obj fields)
        = Except.error (ItemError.neitherContentNorPath nm) := by
      simp only [resolveItem]
      rw [hname]
      exact resolveFields_neither_err fs _ _ _ nm hnm hct hpt hvt hcb hpb
    have hloop := resolveLoop_first_error fs pre (Json.obj fields) rest _ 0 hpre hitem
    have hres : parseAndResolveResources fs input
        = Except.error (renderError (0 + pre.length) (ItemError.neitherContentNorPath nm)) := by
      rw [parseAndResolveResources_arr fs input _ hparse, hloop]
    rw [Nat.zero_add] at hres
    exact hres

theorem c2_content_path_exclusivity_witness :
    parseAndResolveResources emptyFs
        "[\x7b\"name\":\"a\",\"content\":\"x\",\"path\":\"f.txt\"\x7d]"
      = Except.error "Resource [0] \"a\": specify either \"content\" or \"path\", not both" ∧
    parseAndResolveResources emptyFs "[\x7b\"name\":\"b\",\"content\":\"  \"\x7d]"
      = Except.error "Resource [0] \"b\": either \"content\" or \"path\" is required" := by
  constructor
  · exact (c2_content_path_exclusivity emptyFs
      [("name", Json.str "a"), ("content", Json.str "x"), ("path", Json.str "f.txt")]
      "a" "[\x7b\"name\":\"a\",\"content\":\"x\",\"path\":\"f.txt\"\x7d]"
      [] [] rfl (by decide) rfl rfl rfl rfl
      (fun j hj => absurd hj (Nat.not_lt_zero j))).1 rfl rfl
  · exact (c2_content_path_exclusivity emptyFs
      [("name", Json.str "b"), ("content", Json.str "  ")]
      "b" "[\x7b\"name\":\"b\",\"content\":\"  \"\x7d]"
      [] [] rfl (by decide) rfl rfl rfl rfl
      (fun j hj => absurd hj (Nat.not_lt_zero j))).2 rfl rfl

/-- C3: validation is strictly left-to-right and the first error wins: if
every element before position `k = pre.length` resolves and the element there
fails, the whole routine fails with that element's message — which begins by
naming index `k` — no matter what the later elements contain, with no
collection of further errors and no partial result. -/
theorem c3_fail_fast_first_error (fs : FileSystem) (input : String) (pre : List Json)
    (bad : Json) (rest : List Json) (e : ItemError)
    (hparse : jsonParse input = some (Json.arr (pre ++ bad :: rest)))
    (hpre : ∀ j (hj : j < pre.length), ∃ r, resolveItem fs (pre.get ⟨j, hj⟩) = Except.ok r)
    (hbad : resolveItem fs bad = Except.error e) :
    parseAndResolveResources fs input = Except.error (renderError pre.length e) ∧
    ∃ s, renderError pre.length e = "Resource [" ++ toString pre.length ++ "]" ++ s := by
  have hloop := resolveLoop_first_error fs pre bad rest e 0 hpre hbad
  have hres : parseAndResolveResources fs input
      = Except.error (renderError (0 + pre.length) e) := by
    rw [parseAndResolveResources_arr fs input _ hparse, hloop]
  rw [Nat.zero_add] at hres
  refine ⟨hres, ?_⟩
  cases e with
  | notObject =>
    refine ⟨": must be a JSON object", ?_⟩
    simp only [renderError, strAppend_assoc]
    rfl
  | missingName =>
    refine ⟨": \"name\" is required and must be a string", ?_⟩
    simp only [renderError, strAppend_assoc]
    rfl
  | contentNotString nm =>
    refine ⟨" \"" ++ nm ++ "\": \"content\" must be a string when provided", ?_⟩
    simp only [renderError, strAppend_assoc]
    rfl
  | pathNotString nm =>
    refine ⟨" \"" ++ nm ++ "\": \"path\" must be a string when provided", ?_⟩
    simp only [renderError, strAppend_assoc]
    rfl
  | visibleNotBool nm =>
    refine ⟨" \"" ++ nm ++ "\": \"visibleToCustomers\" must be a boolean when provided", ?_⟩
    simp only [renderError, strAppend_assoc]
    rfl
  | bothContentAndPath nm =>
    refine ⟨" \"" ++ nm ++ "\": specify either \"content\" or \"path\", not both", ?_⟩
    simp only [renderError, strAppend_assoc]
    rfl
  | neitherContentNorPath nm =>
    refine ⟨" \"" ++ nm ++ "\": either \"content\" or \"path\" is required", ?_⟩
    simp only [renderError, strAppend_assoc]
    rfl
  | readFailed nm p cause =>
    refine ⟨" \"" ++ nm ++ "\": failed to read file \"" ++ p ++ "\": " ++ cause, ?_⟩
    simp only [renderError, strAppend_assoc]
    rfl

theorem c3_fail_fast_first_error_witness :
    parseAndResolveResources emptyFs
        "[\x7b\"name\":\"a\",\"content\":\"x\"\x7d,null,true]"
      = Except.error (renderError 1 ItemError.notObject) := by
  have h := c3_fail_fast_first_error emptyFs
      "[\x7b\"name\":\"a\",\"content\":\"x\"\x7d,null,true]"
      [Json.obj [("name", Json.str "a"), ("content", Json.str "x")]]
      Json.null [Json.bool true] ItemError.notObject rfl
      (fun j hj => match j, hj with
        | 0, _ => ⟨Resource.mk "a" "x" true, rfl⟩
        | j + 1, hj => absurd (Nat.lt_of_succ_lt_succ hj) (Nat.not_lt_zero j))
      rfl
  exact h.1

/-- C4: when an element resolves through `path` and the file read fails for
any reason, the routine fails with the read-failure message naming the
element's index, its name, the attempted path, and the underlying cause, and
processing stops there: no partial list, no continuation to later items. -/
theorem c4_read_failure_aborts (fs : FileSystem) (fields : List (String × Json))
    (nm p cause : String) (input : String) (pre rest : List Json)
    (hname : getField fields "name" = some (Json.str nm)) (hnm : nm ≠ "")
    (hct : contentTypeOk (getField fields "content") = true)
    (hcnb : isNonBlankStr (getField fields "content") = false)
    (hpath : getField fields "path" = some (Json.str p)) (hpb : jsTrim p ≠ "")
    (hvt : visibleTypeOk (getField fields "visibleToCustomers") = true)
    (hread : fs p = Except.error cause)
    (hparse : jsonParse input = some (Json.arr (pre ++ Json.obj fields :: rest)))
    (hpre : ∀ j (hj : j < pre.length), ∃ r, resolveItem fs (pre.get ⟨j, hj⟩) = Except.ok r) :
    resolveItem fs (Json.obj fields) = Except.error (ItemError.readFailed nm p cause) ∧
    renderError pre.length (ItemError.readFailed nm p cause)
      = "Resource [" ++ toString pre.length ++ "] \"" ++ nm
          ++ "\": failed to read file \"" ++ p ++ "\": " ++ cause ∧
    parseAndResolveResources fs input
      = Except.error (renderError pre.length (ItemError.readFailed nm p cause)) := by
  have hitem : resolveItem fs (Json.obj fields)
      = Except.error (ItemError.readFailed nm p cause) := by
    simp only [resolveItem]
    rw [hname]
    exact resolveFields_read_err fs _ _ _ nm p cause hnm hct hcnb hpath hpb hvt hread
  have hloop := resolveLoop_first_error fs pre (Json.obj fields) rest _ 0 hpre hitem
  have hres : parseAndResolveResources fs input
      = Except.error (renderError (0 + pre.length) (ItemError.readFailed nm p cause)) := by
    rw [parseAndResolveResources_arr fs input _ hparse, hloop]
  rw [Nat.zero_add] at hres
  exact ⟨hitem, rfl, hres⟩

theorem c4_read_failure_aborts_witness :
    parseAndResolveResources emptyFs "[\x7b\"name\":\"a\",\"path\":\"miss.txt\"\x7d]"
      = Except.error (renderError 0
          (ItemError.readFailed "a" "miss.txt" "ENOENT: no such file or directory")) := by
  have h := c4_read_failure_aborts emptyFs
      [("name", Json.str "a"), ("path", Json.str "miss.txt")]
      "a" "miss.txt" "ENOENT: no such file or directory"
      "[\x7b\"name\":\"a\",\"path\":\"miss.txt\"\x7d]" [] []
      rfl (by decide) rfl rfl rfl (by decide) rfl rfl rfl
      (fun j hj => absurd hj (Nat.not_lt_zero j))
  exact h.2.2

end DistrCreateVersion
